import Mathlib

/-!
Verification development for the linguistic-analysis service
(`linguistic-service/main.py`).  Text is modelled as `List Char`,
Python floats as `ℚ`, and the external capabilities (spaCy tagger,
COAST orality model, textstat readability calculator, LingFeat
extractor) as oracle functions that may be absent (`Option`) or fail
(`Except`), matching how the service treats them at its boundary.
-/

namespace LingSvc

/-- Model of `str.lower` restricted to ASCII: lowercase each character. -/
def lowerStr (s : List Char) : List Char := s.map Char.toLower

/-- Model of `str.strip`: drop leading and trailing whitespace. -/
def pyStrip (s : List Char) : List Char :=
  ((s.dropWhile Char.isWhitespace).reverse.dropWhile Char.isWhitespace).reverse

/-- Helper for `pyWords`: accumulate the current word (reversed) while
splitting on whitespace, as the no-argument `str.split` does. -/
def wordsAux : List Char → List Char → List (List Char)
  | [], acc => if acc.isEmpty then [] else [acc.reverse]
  | c :: cs, acc =>
    if c.isWhitespace then
      if acc.isEmpty then wordsAux cs [] else acc.reverse :: wordsAux cs []
    else wordsAux cs (c :: acc)

/-- Model of `str.split` with no argument: split on runs of whitespace,
discarding empty pieces. -/
def pyWords (s : List Char) : List (List Char) := wordsAux s []

/-- Model of the substring test `pat in s`. -/
def containsSub : List Char → List Char → Bool
  | pat, [] => pat.isEmpty
  | pat, c :: cs => pat.isPrefixOf (c :: cs) || containsSub pat cs

/-- Word character for the regex `\b` assertion (`re` module `\w`, ASCII). -/
def isWordChar (c : Char) : Bool := c.isAlphanum || c = '_'

/-- Lift of `isWordChar` to an optional character; `none` (string edge) is
never a word character. -/
def woc : Option Char → Bool
  | none => false
  | some c => isWordChar c

/-- Last element of a list as an `Option`. -/
def lastO (l : List Char) : Option Char := l.reverse.head?

/-- Does the pattern match at the current position (`s` is the remaining
text, `prev` the character just before it), with `\b` on both sides,
as `re.search(r'\b' + re.escape(pat) + r'\b', ·)` tests position by
position? -/
def bMatchHere (pat : List Char) (prev : Option Char) (s : List Char) : Bool :=
  pat.isPrefixOf s
    && (woc prev != woc s.head?)
    && (woc (if pat.isEmpty then prev else lastO pat) != woc (s.drop pat.length).head?)

/-- Scan of `re.search` for the pattern `\b pat \b`: try every position. -/
def reSearch (pat : List Char) : Option Char → List Char → Bool
  | prev, [] => bMatchHere pat prev []
  | prev, c :: cs => bMatchHere pat prev (c :: cs) || reSearch pat (some c) cs

/-- `re.search(r'\b' + re.escape(marker) + r'\b', text)` as a Boolean:
does the pattern occur somewhere in `s` with word boundaries on both
sides? -/
def reSearchWB (pat s : List Char) : Bool := reSearch pat none s

/-- The `DISCOURSE_MARKERS` set literal of the service.  The Python
literal names "so", "right" and "okay" twice (once per category); set
semantics keeps a single copy of each, so the embedded list carries the
first occurrence only. -/
def DISCOURSE_MARKERS : List (List Char) :=
  [ -- Additive
   "also", "and", "besides", "furthermore", "moreover", "additionally", "plus",
   -- Contrastive
   "but", "however", "although", "though", "yet", "still", "nevertheless",
   "nonetheless", "on the other hand", "in contrast", "conversely",
   -- Causal
   "because", "since", "therefore", "thus", "so", "hence", "consequently",
   "as a result",
   -- Temporal
   "then", "first", "next", "finally", "meanwhile", "afterwards", "previously",
   "subsequently",
   -- Topic markers ("so" repeats in the literal; the set keeps one copy)
   "well", "now", "okay", "right", "anyway", "actually", "basically",
   -- Hedging
   "like", "sort of", "kind of", "i think", "i guess", "maybe", "perhaps",
   "probably",
   -- Response markers ("right" and "okay" repeat; the set keeps one copy)
   "yes", "yeah", "no", "sure", "absolutely"].map String.data

/-- The `personal_pronouns` list of `analyze_orality`. -/
def PERSONAL_PRONOUNS : List (List Char) :=
  (["i", "you", "we", "me", "my", "your", "our"]).map String.data

/-- The `contractions` list of `analyze_orality`. -/
def CONTRACTIONS : List (List Char) :=
  (["'m", "'re", "'ve", "'ll", "'d", "n't", "'s"]).map String.data

/-- The `POSCounts` pydantic model: eight counters, each defaulting to 0. -/
structure POSCounts where
  nouns : ℕ := 0
  verbs : ℕ := 0
  adjectives : ℕ := 0
  adverbs : ℕ := 0
  pronouns : ℕ := 0
  prepositions : ℕ := 0
  conjunctions : ℕ := 0
  interjections : ℕ := 0
deriving Repr, DecidableEq

/-- The value `POSCounts()` with all fields at their default 0. -/
def POSCounts.zero : POSCounts := {}

/-- The `ReadabilityMetrics` pydantic model: six scalars defaulting to 0.0. -/
structure ReadabilityMetrics where
  flesch_reading_ease : ℚ := 0
  flesch_kincaid_grade : ℚ := 0
  gunning_fog : ℚ := 0
  smog_index : ℚ := 0
  automated_readability_index : ℚ := 0
  coleman_liau_index : ℚ := 0
deriving Repr, DecidableEq

/-- The value `ReadabilityMetrics()` with every formula at 0.0. -/
def ReadabilityMetrics.zero : ReadabilityMetrics := {}

/-- The `LingFeatSummary` pydantic model. -/
structure LingFeatSummary where
  lexical_diversity : ℚ := 0
  avg_word_length : ℚ := 0
  sentence_complexity : ℚ := 0
deriving Repr, DecidableEq

/-- The `Segment` request model: caller-supplied index and text. -/
structure Segment where
  segment_index : ℤ
  text : List Char
deriving Repr, DecidableEq

/-- The `SegmentResult` response model. -/
structure SegmentResult where
  segment_index : ℤ
  text : List Char
  orality_score : ℚ
  parts_of_speech : POSCounts
  discourse_markers : List (List Char)
  readability_score : ℚ
  readability_metrics : Option ReadabilityMetrics
  lingfeat_summary : Option LingFeatSummary
deriving Repr, DecidableEq

/-- The `AnalysisResponse` model. -/
structure AnalysisResponse where
  success : Bool
  error : Option String := none
  results : List SegmentResult
deriving Repr, DecidableEq

/-- The external capabilities the service holds after startup: the spaCy
tagger (`nlp`, absent when the model failed to load; a call may raise),
the COAST orality model (optional; a call may raise), the textstat
calculator (a call may raise) and the LingFeat extractor (optional; a
call may raise, and its output is a named-feature lookup). -/
structure Caps where
  nlp : Option (List Char → Except String (List String))
  coast : Option (List Char → Except String ℚ)
  textstat : List Char → Except String ReadabilityMetrics
  lingfeat : Option (List Char → Except String (String → Option ℚ))

/-- One iteration of the `for token in doc` loop of `analyze_pos`: bump
the counter selected by the coarse tag of the token, leaving counts unchanged
for any tag outside the if/elif chain. -/
def posUpdate (counts : POSCounts) (pos : String) : POSCounts :=
  if pos = "NOUN" ∨ pos = "PROPN" then { counts with nouns := counts.nouns + 1 }
  else if pos = "VERB" ∨ pos = "AUX" then { counts with verbs := counts.verbs + 1 }
  else if pos = "ADJ" then { counts with adjectives := counts.adjectives + 1 }
  else if pos = "ADV" then { counts with adverbs := counts.adverbs + 1 }
  else if pos = "PRON" then { counts with pronouns := counts.pronouns + 1 }
  else if pos = "ADP" then { counts with prepositions := counts.prepositions + 1 }
  else if pos = "CCONJ" ∨ pos = "SCONJ" then
    { counts with conjunctions := counts.conjunctions + 1 }
  else if pos = "INTJ" then { counts with interjections := counts.interjections + 1 }
  else counts

/-- Model of `analyze_pos`: all-zero counts when the spaCy model is absent;
otherwise fold the tag sequence produced by `nlp(text)`.  The `nlp`
call sits outside any try/except, so its failure propagates. -/
def analyze_pos (nlpCap : Option (List Char → Except String (List String)))
    (text : List Char) : Except String POSCounts :=
  match nlpCap with
  | none => Except.ok POSCounts.zero
  | some f => (f text).map (fun tags => tags.foldl posUpdate POSCounts.zero)

/-- Model of `analyze_readability`: empty-after-strip text short-circuits to
`(0.0, ReadabilityMetrics())`; otherwise the textstat call either yields
the six metrics, from which the primary score is the Flesch Reading Ease
clamped to [0, 100], or raises, which the `except` converts to the zero
result. -/
def analyze_readability (ts : List Char → Except String ReadabilityMetrics)
    (text : List Char) : ℚ × ReadabilityMetrics :=
  if pyStrip text = [] then (0, ReadabilityMetrics.zero)
  else
    match ts text with
    | Except.ok m => (max 0 (min 100 m.flesch_reading_ease), m)
    | Except.error _ => (0, ReadabilityMetrics.zero)

/-- The discourse-marker count of the orality heuristic:
`sum(1 for marker in DISCOURSE_MARKERS if marker in text.lower())`,
a membership scan over the lexicon (plain containment, no boundaries). -/
def discourseCount (tl : List Char) : ℕ :=
  (DISCOURSE_MARKERS.filter (fun m => containsSub m tl)).length

/-- The pronoun count of the orality heuristic:
`sum(1 for w in words if w in personal_pronouns)`. -/
def pronounCount (words : List (List Char)) : ℕ :=
  (words.filter (fun w => PERSONAL_PRONOUNS.contains w)).length

/-- The contraction count of the orality heuristic:
`sum(1 for c in contractions if c in text.lower())` — one per marker
that occurs at all, regardless of how often. -/
def contractionCount (tl : List Char) : ℕ :=
  (CONTRACTIONS.filter (fun c => containsSub c tl)).length

/-- Discourse-marker indicator of the heuristic:
`min(discourse_density * 5, 25)` with
`discourse_density = (discourse_count / word_count) * 100`. -/
def discourseIndicator (word_count : ℕ) (tl : List Char) : ℚ :=
  min ((((discourseCount tl : ℚ) / word_count) * 100) * 5) 25

/-- Personal-pronoun indicator of the heuristic:
`min(pronoun_density * 3, 25)` with
`pronoun_density = (pronoun_count / word_count) * 100`. -/
def pronounIndicator (words : List (List Char)) : ℚ :=
  min ((((pronounCount words : ℚ) / words.length) * 100) * 3) 25

/-- Average-word-length indicator of the heuristic: 25 points below 4
characters, 15 below 5, 5 below 6, else 0. -/
def avgWordLenIndicator (words : List (List Char)) : ℚ :=
  let avg_word_len : ℚ :=
    if 0 < words.length then (((words.map List.length).sum : ℚ) / words.length) else 5
  if avg_word_len < 4 then 25
  else if avg_word_len < 5 then 15
  else if avg_word_len < 6 then 5
  else 0

/-- Contraction indicator of the heuristic:
`min(contraction_count * 5, 25)`. -/
def contractionIndicator (tl : List Char) : ℚ :=
  min ((contractionCount tl : ℚ) * 5) 25

/-- The heuristic fallback of `analyze_orality` (lines 198-239): neutral
50.0 on empty/whitespace-only text, otherwise four indicators of up to
25 points each over a total weight of 100. -/
def oralityHeuristic (text : List Char) : ℚ :=
  if pyStrip text = [] then 50
  else
    let words := pyWords (lowerStr text)
    if words.length = 0 then 50
    else
      let orality_indicators : ℚ :=
        discourseIndicator words.length (lowerStr text) + pronounIndicator words
          + avgWordLenIndicator words + contractionIndicator (lowerStr text)
      let total_weight : ℚ := 25 + 25 + 25 + 25
      if 0 < total_weight then (orality_indicators / total_weight) * 100 else 50

/-- Model of `analyze_orality`: use COAST when available and its call succeeds
(native 0-1 output scaled to 0-100 and clamped); on a missing capability
or a caught failure, fall back to the heuristic. -/
def analyze_orality (coastCap : Option (List Char → Except String ℚ))
    (text : List Char) : ℚ :=
  match coastCap with
  | some f =>
    match f text with
    | Except.ok score => min 100 (max 0 (score * 100))
    | Except.error _ => oralityHeuristic text
  | none => oralityHeuristic text

/-- Model of `extract_discourse_markers`: collect, in lexicon order, every marker
that passes the containment pre-check and the word-boundary regex search
against the lowercased text. -/
def extract_discourse_markers (text : List Char) : List (List Char) :=
  DISCOURSE_MARKERS.filter
    (fun marker => containsSub marker (lowerStr text) && reSearchWB marker (lowerStr text))

/-- Model of `analyze_lingfeat`: `None` when the capability is absent or the text
strips to empty; otherwise summarize three named features, defaulting
each missing one to 0.0, with any raised error collapsing to `None`. -/
def analyze_lingfeat (lf : Option (List Char → Except String (String → Option ℚ)))
    (text : List Char) : Option LingFeatSummary :=
  match lf with
  | none => none
  | some f =>
    if pyStrip text = [] then none
    else
      match f text with
      | Except.ok features =>
        some { lexical_diversity := (features "LexicalDiversity").getD 0
               avg_word_length := (features "AvgWordLength").getD 0
               sentence_complexity := (features "SentenceComplexity").getD 0 }
      | Except.error _ => none

/-- Model of the builtin `round(x, 2)` on rationals: scale by 100 and round
half to even. -/
def pyRound2 (q : ℚ) : ℚ :=
  let scaled := q * 100
  let f : ℤ := ⌊scaled⌋
  let r : ℤ :=
    if scaled - f < 1 / 2 then f
    else if 1 / 2 < scaled - f then f + 1
    else if f % 2 = 0 then f else f + 1
  (r : ℚ) / 100

/-- Model of `analyze_segment`: strip the text, run the five analyses, and build
the result; only the tagger call can raise, and that failure propagates
to the caller. -/
def analyze_segment (caps : Caps) (seg : Segment) : Except String SegmentResult :=
  let text := pyStrip seg.text
  match analyze_pos caps.nlp text with
  | Except.error e => Except.error e
  | Except.ok pos_counts =>
    let rd := analyze_readability caps.textstat text
    Except.ok
      { segment_index := seg.segment_index
        text := text
        orality_score := pyRound2 (analyze_orality caps.coast text)
        parts_of_speech := pos_counts
        discourse_markers := extract_discourse_markers text
        readability_score := pyRound2 rd.1
        readability_metrics := some rd.2
        lingfeat_summary := analyze_lingfeat caps.lingfeat text }

/-- The `for segment in request.segments` loop of the `/analyze`
endpoint: results in input order, aborted by the first raised error. -/
def analyzeLoop (caps : Caps) : List Segment → Except String (List SegmentResult)
  | [] => Except.ok []
  | s :: rest =>
    match analyze_segment caps s with
    | Except.error e => Except.error e
    | Except.ok r => (analyzeLoop caps rest).map (fun rs => r :: rs)

/-- The `/analyze` endpoint: on success a 2xx `AnalysisResponse` with
`success = true`; any uncaught error becomes an HTTP 500
(`Except.error`), carrying no results. -/
def analyze (caps : Caps) (segments : List Segment) : Except String AnalysisResponse :=
  (analyzeLoop caps segments).map
    (fun rs => { success := true, error := none, results := rs })

/-- The list of results the caller receives: those of a 2xx response,
none at all from an error response. -/
def responseResults : Except String AnalysisResponse → List SegmentResult
  | Except.ok a => a.results
  | Except.error _ => []

/-! ### Bounds of the four heuristic indicators -/

theorem discourseIndicator_nonneg (wc : ℕ) (tl : List Char) :
    0 ≤ discourseIndicator wc tl := by
  unfold discourseIndicator
  have h : (0 : ℚ) ≤ (((discourseCount tl : ℚ) / wc) * 100) * 5 := by positivity
  exact le_min h (by norm_num)

theorem discourseIndicator_le (wc : ℕ) (tl : List Char) :
    discourseIndicator wc tl ≤ 25 := min_le_right _ _

theorem pronounIndicator_nonneg (words : List (List Char)) :
    0 ≤ pronounIndicator words := by
  unfold pronounIndicator
  have h : (0 : ℚ) ≤ (((pronounCount words : ℚ) / words.length) * 100) * 3 := by positivity
  exact le_min h (by norm_num)

theorem pronounIndicator_le (words : List (List Char)) :
    pronounIndicator words ≤ 25 := min_le_right _ _

theorem avgWordLenIndicator_nonneg (words : List (List Char)) :
    0 ≤ avgWordLenIndicator words := by
  unfold avgWordLenIndicator
  split_ifs <;> try norm_num
  split_ifs <;> norm_num

theorem avgWordLenIndicator_le (words : List (List Char)) :
    avgWordLenIndicator words ≤ 25 := by
  unfold avgWordLenIndicator
  split_ifs <;> try norm_num
  split_ifs <;> norm_num

theorem contractionIndicator_nonneg (tl : List Char) :
    0 ≤ contractionIndicator tl := by
  unfold contractionIndicator
  have h : (0 : ℚ) ≤ (contractionCount tl : ℚ) * 5 := by positivity
  exact le_min h (by norm_num)

theorem contractionIndicator_le (tl : List Char) :
    contractionIndicator tl ≤ 25 := min_le_right _ _

/-- The heuristic orality score always lies in [0, 100]. -/
theorem oralityHeuristic_mem (text : List Char) :
    0 ≤ oralityHeuristic text ∧ oralityHeuristic text ≤ 100 := by
  unfold oralityHeuristic
  by_cases h1 : pyStrip text = []
  · rw [if_pos h1]; norm_num
  rw [if_neg h1]
  simp only []
  by_cases h2 : (pyWords (lowerStr text)).length = 0
  · rw [if_pos h2]; norm_num
  rw [if_neg h2, if_pos (by norm_num : (0 : ℚ) < 25 + 25 + 25 + 25)]
  have h₁ := discourseIndicator_nonneg (pyWords (lowerStr text)).length (lowerStr text)
  have h₂ := discourseIndicator_le (pyWords (lowerStr text)).length (lowerStr text)
  have h₃ := pronounIndicator_nonneg (pyWords (lowerStr text))
  have h₄ := pronounIndicator_le (pyWords (lowerStr text))
  have h₅ := avgWordLenIndicator_nonneg (pyWords (lowerStr text))
  have h₆ := avgWordLenIndicator_le (pyWords (lowerStr text))
  have h₇ := contractionIndicator_nonneg (lowerStr text)
  have h₈ := contractionIndicator_le (lowerStr text)
  constructor
  · positivity
  · rw [div_mul_eq_mul_div, mul_comm, mul_div_assoc]
    nlinarith [h₁, h₂, h₃, h₄, h₅, h₆, h₇, h₈]

/-- C1: for every text input (and any behavior of the external COAST
model and textstat calculator), the orality score returned by
`analyze_orality` and the primary readability score returned by
`analyze_readability` lie in the interval [0, 100]. -/
theorem scores_within_bounds :
    ∀ (coastCap : Option (List Char → Except String ℚ))
      (ts : List Char → Except String ReadabilityMetrics) (text : List Char),
      (0 ≤ analyze_orality coastCap text ∧ analyze_orality coastCap text ≤ 100) ∧
      (0 ≤ (analyze_readability ts text).1 ∧ (analyze_readability ts text).1 ≤ 100) := by
  intro coastCap ts text
  constructor
  · cases coastCap with
    | none => simpa [analyze_orality] using oralityHeuristic_mem text
    | some f =>
      cases hf : f text with
      | ok score =>
        simp only [analyze_orality, hf]
        exact ⟨le_min (by norm_num) (le_max_left 0 _), min_le_left _ _⟩
      | error e => simpa [analyze_orality, hf] using oralityHeuristic_mem text
  · unfold analyze_readability
    split
    · norm_num
    split
    · exact ⟨le_max_left 0 _, max_le (by norm_num) (min_le_left _ _)⟩
    · norm_num

/-! ### Batch pipeline: order preservation and all-or-nothing failure -/

theorem analyze_segment_index (caps : Caps) (s : Segment) (r : SegmentResult)
    (h : analyze_segment caps s = Except.ok r) : r.segment_index = s.segment_index := by
  unfold analyze_segment at h
  simp only [] at h
  cases hp : analyze_pos caps.nlp (pyStrip s.text) with
  | error e => rw [hp] at h; cases h
  | ok pc => rw [hp] at h; cases h; rfl

theorem analyzeLoop_ok (caps : Caps) :
    ∀ (segs : List Segment) (rs : List SegmentResult),
      analyzeLoop caps segs = Except.ok rs →
      rs.map (fun r => r.segment_index) = segs.map (fun s => s.segment_index) ∧
      rs.length = segs.length := by
  intro segs
  induction segs with
  | nil =>
    intro rs h
    unfold analyzeLoop at h
    cases h
    exact ⟨rfl, rfl⟩
  | cons s rest ih =>
    intro rs h
    unfold analyzeLoop at h
    cases hs : analyze_segment caps s with
    | error e => rw [hs] at h; cases h
    | ok r =>
      rw [hs] at h
      cases hrest : analyzeLoop caps rest with
      | error e => rw [hrest] at h; cases h
      | ok rs' =>
        rw [hrest] at h
        cases h
        obtain ⟨hm, hl⟩ := ih rs' hrest
        constructor
        · simp only [List.map_cons, hm, analyze_segment_index caps s r hs]
        · simp [hl]

/-- C2: whenever a batch request succeeds, the response holds exactly one
result per input segment, in input order, and each result carries the
segment index of the corresponding input segment. -/
theorem analyze_mirrors_input :
    ∀ (caps : Caps) (segments : List Segment) (resp : AnalysisResponse),
      analyze caps segments = Except.ok resp →
      resp.results.length = segments.length ∧
      resp.results.map (fun r => r.segment_index) =
        segments.map (fun s => s.segment_index) := by
  intro caps segments resp h
  unfold analyze at h
  cases hl : analyzeLoop caps segments with
  | error e => rw [hl] at h; cases h
  | ok rs =>
    rw [hl] at h
    cases h
    obtain ⟨hm, hlen⟩ := analyzeLoop_ok caps segments rs hl
    exact ⟨hlen, hm⟩

/-- Witness for C2: a concrete batch with indices [3, 1, 2] comes back
as three results with indices [3, 1, 2]. -/
theorem analyze_mirrors_input_witness :
    ∃ resp,
      analyze ⟨none, none, fun _ => Except.error "down", none⟩
          [⟨3, []⟩, ⟨1, []⟩, ⟨2, []⟩] = Except.ok resp ∧
      resp.results.length = 3 ∧
      resp.results.map (fun r => r.segment_index) = [3, 1, 2] := by
  obtain ⟨resp, hr⟩ :
      ∃ resp, analyze ⟨none, none, fun _ => Except.error "down", none⟩
        [⟨3, []⟩, ⟨1, []⟩, ⟨2, []⟩] = Except.ok resp := ⟨_, by with_unfolding_all rfl⟩
  have h := analyze_mirrors_input _ _ resp hr
  exact ⟨resp, hr, by rw [h.1]; rfl, by rw [h.2]; rfl⟩

theorem analyzeLoop_error_of_mem (caps : Caps) :
    ∀ segs : List Segment,
      (∃ s ∈ segs, ∃ e, analyze_segment caps s = Except.error e) →
      ∃ e, analyzeLoop caps segs = Except.error e := by
  intro segs
  induction segs with
  | nil =>
    rintro ⟨s, hs, _⟩
    cases hs
  | cons a rest ih =>
    rintro ⟨s, hs, e, he⟩
    rcases List.mem_cons.mp hs with rfl | hmem
    · exact ⟨e, by unfold analyzeLoop; rw [he]⟩
    · cases ha : analyze_segment caps a with
      | error e' => exact ⟨e', by unfold analyzeLoop; rw [ha]⟩
      | ok r =>
        obtain ⟨e', he'⟩ := ih ⟨s, hmem, e, he⟩
        exact ⟨e', by unfold analyzeLoop; rw [ha, he']; rfl⟩

/-- C3: if analysis of any single segment of a batch raises an uncaught
error, the entire batch fails: the endpoint produces an error response
(HTTP 500) and the caller receives zero segment results. -/
theorem batch_all_or_nothing :
    ∀ (caps : Caps) (segments : List Segment),
      (∃ s ∈ segments, ∃ e, analyze_segment caps s = Except.error e) →
      (∃ e, analyze caps segments = Except.error e) ∧
      responseResults (analyze caps segments) = [] := by
  intro caps segments h
  obtain ⟨e, he⟩ := analyzeLoop_error_of_mem caps segments h
  have ha : analyze caps segments = Except.error e := by
    unfold analyze; rw [he]; rfl
  exact ⟨⟨e, ha⟩, by rw [ha]; rfl⟩

/-- Witness for C3: with a tagger whose call raises, a one-segment batch
produces an error response and no results. -/
theorem batch_all_or_nothing_witness :
    (∃ e, analyze ⟨some (fun _ => Except.error "boom"), none,
        fun _ => Except.error "down", none⟩ [⟨0, 'h' :: ['i']⟩] = Except.error e) ∧
      responseResults (analyze ⟨some (fun _ => Except.error "boom"), none,
        fun _ => Except.error "down", none⟩ [⟨0, 'h' :: ['i']⟩]) = [] :=
  batch_all_or_nothing _ _ ⟨⟨0, 'h' :: ['i']⟩, by simp, "boom", by rfl⟩

/-! ### Word-boundary semantics of the discourse-marker regex -/

/-- The character just before the current scan position: the last one of
the consumed prefix, or the carried `prev` when that prefix is empty. -/
def lastOr (prev : Option Char) (l : List Char) : Option Char :=
  match lastO l with
  | some c => some c
  | none => prev

theorem lastOr_nil (prev : Option Char) : lastOr prev [] = prev := rfl

theorem lastOr_none (l : List Char) : lastOr none l = lastO l := by
  unfold lastOr
  cases h : lastO l <;> simp

theorem lastO_cons (c : Char) (l : List Char) : lastO (c :: l) = lastOr (some c) l := by
  unfold lastO lastOr
  rw [List.reverse_cons]
  cases h : l.reverse with
  | nil => simp [lastO, h]
  | cons a as => simp [lastO, h]

theorem lastOr_cons (prev : Option Char) (c : Char) (l : List Char) :
    lastOr prev (c :: l) = lastOr (some c) l := by
  unfold lastOr
  rw [lastO_cons]
  unfold lastOr
  cases h : lastO l <;> simp

/-- Soundness of the boundary scan: a successful `reSearch` of a
nonempty pattern exhibits a split of the text at the match, with a
word/non-word flip on each side of the pattern. -/
theorem reSearch_sound (pat : List Char) (hp : pat ≠ []) :
    ∀ (s : List Char) (prev : Option Char), reSearch pat prev s = true →
      ∃ pre post, s = pre ++ pat ++ post ∧
        woc (lastOr prev pre) ≠ woc pat.head? ∧
        woc (lastO pat) ≠ woc post.head? := by
  intro s
  induction s with
  | nil =>
    intro prev h
    exfalso
    unfold reSearch bMatchHere at h
    cases pat with
    | nil => exact hp rfl
    | cons a as => simp [List.isPrefixOf] at h
  | cons c cs ih =>
    intro prev h
    unfold reSearch at h
    rw [Bool.or_eq_true] at h
    rcases h with hm | hrec
    · unfold bMatchHere at hm
      rw [Bool.and_eq_true, Bool.and_eq_true] at hm
      have hpre : pat.isPrefixOf (c :: cs) = true := hm.1.1
      have hb1 := hm.1.2
      have hb2 := hm.2
      obtain ⟨post, hpost⟩ : ∃ post, c :: cs = pat ++ post := by
        obtain ⟨t, ht⟩ := List.isPrefixOf_iff_prefix.mp hpre
        exact ⟨t, ht.symm⟩
      have hne : pat.isEmpty = false := by
        cases pat with
        | nil => exact absurd rfl hp
        | cons a as => rfl
      refine ⟨[], post, by simpa using hpost, ?_, ?_⟩
      · rw [lastOr_nil]
        have hhd : (c :: cs).head? = pat.head? := by
          rw [hpost]
          cases pat with
          | nil => exact absurd rfl hp
          | cons a as => rfl
        rw [hhd] at hb1
        exact bne_iff_ne.mp hb1
      · simp only [hne, Bool.false_eq_true, if_false] at hb2
        have hdrop : (c :: cs).drop pat.length = post := by
          rw [hpost]
          exact List.drop_left pat post
        rw [hdrop] at hb2
        exact bne_iff_ne.mp hb2
    · obtain ⟨pre', post, hs, hb1, hb2⟩ := ih (some c) hrec
      exact ⟨c :: pre', post, by simp [hs],
        by rwa [lastOr_cons], hb2⟩

/-- C4: the detector returns a marker only when it occurs in the
lowercased text as a whole token or whole phrase — the text splits at
the match with a word/non-word boundary on both sides — and in
particular the text "Gasoline is expensive" matches neither "so" nor
"as" even though both occur as raw substrings of "gasoline". -/
theorem discourse_marker_whole_token :
    (∀ (text m : List Char), m ∈ extract_discourse_markers text →
      ∃ pre post, lowerStr text = pre ++ m ++ post ∧
        woc (lastO pre) ≠ woc m.head? ∧
        woc (lastO m) ≠ woc post.head?) ∧
    "so".data ∉ extract_discourse_markers "Gasoline is expensive".data ∧
    "as".data ∉ extract_discourse_markers "Gasoline is expensive".data := by
  refine ⟨?_, by decide, by decide⟩
  intro text m hm
  obtain ⟨hmem, hpred⟩ := List.mem_filter.mp hm
  rw [Bool.and_eq_true] at hpred
  have hws : reSearchWB m (lowerStr text) = true := hpred.2
  have hnon : m ≠ [] := by
    have hall : ∀ x ∈ DISCOURSE_MARKERS, x ≠ [] := by decide
    exact hall m hmem
  obtain ⟨pre, post, h1, h2, h3⟩ := reSearch_sound m hnon (lowerStr text) none hws
  exact ⟨pre, post, h1, by rwa [lastOr_none] at h2, h3⟩

/-- Witness for C4: in "so what" the marker "so" is found, and the
boundary split it guarantees is exhibited. -/
theorem discourse_marker_whole_token_witness :
    ∃ pre post, lowerStr "so what".data = pre ++ "so".data ++ post ∧
      woc (lastO pre) ≠ woc ("so".data).head? ∧
      woc (lastO "so".data) ≠ woc post.head? :=
  discourse_marker_whole_token.1 "so what".data "so".data (by decide)

/-! ### Empty or whitespace-only segments -/

theorem pyRound2_fifty : pyRound2 50 = 50 := by with_unfolding_all decide

theorem pyRound2_zero : pyRound2 0 = 0 := by with_unfolding_all decide

/-- C5: when the primary orality model is unavailable, a segment whose
text strips to empty yields a successful result with orality 50.0,
readability 0.0, no discourse markers, and all-zero POS counts (the
tagger, when loaded, yields no tokens on empty text). -/
theorem empty_text_neutral :
    ∀ (caps : Caps) (seg : Segment),
      caps.coast = none →
      (∀ f, caps.nlp = some f → f [] = Except.ok []) →
      pyStrip seg.text = [] →
      ∃ r, analyze_segment caps seg = Except.ok r ∧
        r.orality_score = 50 ∧ r.readability_score = 0 ∧
        r.discourse_markers = [] ∧ r.parts_of_speech = POSCounts.zero := by
  intro caps seg hc hn hs
  have hpos : analyze_pos caps.nlp [] = Except.ok POSCounts.zero := by
    cases hcap : caps.nlp with
    | none => rfl
    | some f => simp [analyze_pos, hn f hcap, Except.map]
  unfold analyze_segment
  simp only []
  rw [hs, hpos]
  refine ⟨_, rfl, ?_, ?_, ?_, rfl⟩
  · show pyRound2 (analyze_orality caps.coast []) = 50
    rw [hc]
    exact pyRound2_fifty
  · show pyRound2 (analyze_readability caps.textstat []).1 = 0
    exact pyRound2_zero
  · show extract_discourse_markers [] = []
    decide

/-- Witness for C5: a whitespace-only segment under a loaded tagger that
returns no tokens on empty text. -/
theorem empty_text_neutral_witness :
    ∃ r, analyze_segment
        ⟨some (fun _ => Except.ok []), none, fun _ => Except.ok ReadabilityMetrics.zero, none⟩
        ⟨7, "   ".data⟩ = Except.ok r ∧
      r.orality_score = 50 ∧ r.readability_score = 0 ∧
      r.discourse_markers = [] ∧ r.parts_of_speech = POSCounts.zero :=
  empty_text_neutral _ _ rfl (fun f hf => by cases hf; rfl) (by decide)

/-! ### The contraction indicator counts distinct markers, not occurrences -/

/-- Number of positions at which `pat` occurs in `s` (occurrences may
overlap); the occurrence count the claim wording refers to. -/
def occCount : List Char → List Char → ℕ
  | pat, [] => if pat.isEmpty then 1 else 0
  | pat, c :: cs => (if pat.isPrefixOf (c :: cs) then 1 else 0) + occCount pat cs

/-- Rendering of the claim wording for the contraction indicator: the
total count of occurrences of the contraction markers in the lowercased
text, multiplied by 5, capped at 25.  Stated from the claim, for
comparison against `contractionIndicator`, which embeds the code. -/
def claimedContractionIndicator (tl : List Char) : ℚ :=
  min (((CONTRACTIONS.map (fun c => occCount c tl)).sum : ℚ) * 5) 25

theorem containsSub_iff_occ (pat : List Char) :
    ∀ s, containsSub pat s = true ↔ 0 < occCount pat s := by
  intro s
  induction s with
  | nil =>
    unfold containsSub occCount
    cases hp : pat.isEmpty <;> simp [hp]
  | cons c cs ih =>
    unfold containsSub occCount
    rw [Bool.or_eq_true]
    cases hp : pat.isPrefixOf (c :: cs) <;> simp [hp, ih]

/-- Counterexample for C6: the lowercased text of "it's bob's" holds two
occurrences of one contraction marker; the code indicator contributes 5
points for it, while the claimed occurrence counting yields 10. -/
theorem contraction_occurrences_cex :
    contractionIndicator (lowerStr "it's bob's".data) = 5 ∧
    claimedContractionIndicator (lowerStr "it's bob's".data) = 10 ∧
    contractionIndicator (lowerStr "it's bob's".data) ≠
      claimedContractionIndicator (lowerStr "it's bob's".data) := by
  refine ⟨?_, ?_, ?_⟩ <;> with_unfolding_all decide

/-- C6 (amended): the contraction indicator equals 5 points per distinct
contraction marker having at least one occurrence in the lowercased
text — multiplicity of a marker does not matter — capped at 25. -/
theorem contraction_indicator_amended :
    ∀ tl : List Char,
      contractionIndicator tl =
        min (((CONTRACTIONS.filter (fun c => decide (0 < occCount c tl))).length : ℚ) * 5) 25 := by
  intro tl
  have key : contractionCount tl =
      (CONTRACTIONS.filter (fun c => decide (0 < occCount c tl))).length := by
    unfold contractionCount
    congr 1
    apply List.filter_congr
    intro c hc
    by_cases h : 0 < occCount c tl
    · rw [decide_eq_true h, (containsSub_iff_occ c tl).mpr h]
    · rw [decide_eq_false h]
      cases hcs : containsSub c tl
      · rfl
      · exact absurd ((containsSub_iff_occ c tl).mp hcs) h
  unfold contractionIndicator
  rw [key]

/-! ### Concrete heuristic example -/

/-- C7: with the primary orality model unavailable, the heuristic score
of the text "I think it's kind of complicated, you know?" is strictly
above 50 (it evaluates to 70). -/
theorem heuristic_example_gt_fifty :
    50 < analyze_orality none "I think it's kind of complicated, you know?".data := by
  with_unfolding_all decide

/-! ### POS bucket aggregation -/

/-- The tags named by the if/elif chain of `analyze_pos`. -/
def MAPPED_TAGS : List String :=
  ["NOUN", "PROPN", "VERB", "AUX", "ADJ", "ADV", "PRON", "ADP", "CCONJ", "SCONJ", "INTJ"]

/-- C8: the POS aggregator applies the fixed many-to-one bucket table to
each tag, leaves counts unchanged for any tag outside the table, and
yields all-zero counts for every text when the tagger is unavailable. -/
theorem pos_bucket_mapping :
    (∀ c : POSCounts,
      posUpdate c "NOUN" = { c with nouns := c.nouns + 1 } ∧
      posUpdate c "PROPN" = { c with nouns := c.nouns + 1 } ∧
      posUpdate c "VERB" = { c with verbs := c.verbs + 1 } ∧
      posUpdate c "AUX" = { c with verbs := c.verbs + 1 } ∧
      posUpdate c "ADJ" = { c with adjectives := c.adjectives + 1 } ∧
      posUpdate c "ADV" = { c with adverbs := c.adverbs + 1 } ∧
      posUpdate c "PRON" = { c with pronouns := c.pronouns + 1 } ∧
      posUpdate c "ADP" = { c with prepositions := c.prepositions + 1 } ∧
      posUpdate c "CCONJ" = { c with conjunctions := c.conjunctions + 1 } ∧
      posUpdate c "SCONJ" = { c with conjunctions := c.conjunctions + 1 } ∧
      posUpdate c "INTJ" = { c with interjections := c.interjections + 1 }) ∧
    (∀ (c : POSCounts) (tag : String), tag ∉ MAPPED_TAGS → posUpdate c tag = c) ∧
    (∀ text : List Char, analyze_pos none text = Except.ok POSCounts.zero) := by
  refine ⟨?_, ?_, fun _ => rfl⟩
  · intro c
    refine ⟨?_, ?_, ?_, ?_, ?_, ?_, ?_, ?_, ?_, ?_, ?_⟩ <;> simp [posUpdate]
  · intro c tag h
    simp only [MAPPED_TAGS, List.mem_cons, List.not_mem_nil, or_false, not_or] at h
    obtain ⟨h₁, h₂, h₃, h₄, h₅, h₆, h₇, h₈, h₉, h₁₀, h₁₁⟩ := h
    unfold posUpdate
    split_ifs <;> first | rfl | tauto

/-- Witness for C8: the unmapped tag PUNCT leaves counts unchanged. -/
theorem pos_bucket_mapping_witness :
    posUpdate POSCounts.zero "PUNCT" = POSCounts.zero :=
  pos_bucket_mapping.2.1 POSCounts.zero "PUNCT" (by decide)

/-! ### Deduplication of the marker list -/

/-- C9: the lexicon (a set in the source, so free of duplicates even
though some words appear in several categories of the literal) and hence
the extracted marker list of every text contain no duplicate strings. -/
theorem discourse_markers_nodup :
    DISCOURSE_MARKERS.Nodup ∧
    ∀ text : List Char, (extract_discourse_markers text).Nodup := by
  have h : DISCOURSE_MARKERS.Nodup := by decide
  exact ⟨h, fun text => h.filter _⟩

/-! ### The heuristic never divides by zero -/

theorem char_toNat_ofNat (n : ℕ) (h : n.isValidChar) : (Char.ofNat n).toNat = n := by
  unfold Char.ofNat
  rw [dif_pos h]
  unfold Char.ofNatAux Char.toNat
  simp [UInt32.toNat]

/-- Lowercasing does not change whether a character is whitespace. -/
theorem isWhitespace_toLower (c : Char) :
    (Char.toLower c).isWhitespace = c.isWhitespace := by
  unfold Char.toLower
  simp only []
  split
  · rename_i h
    have hv : (c.toNat + 32).isValidChar := Or.inl (by omega)
    have ht : (Char.ofNat (c.toNat + 32)).toNat = c.toNat + 32 := char_toNat_ofNat _ hv
    have h1 : (Char.ofNat (c.toNat + 32)).isWhitespace = false := by
      unfold Char.isWhitespace
      have k1 : Char.ofNat (c.toNat + 32) ≠ ' ' := fun heq => by
        rw [heq] at ht
        have : (' ' : Char).toNat = 32 := rfl
        omega
      have k2 : Char.ofNat (c.toNat + 32) ≠ '\t' := fun heq => by
        rw [heq] at ht
        have : ('\t' : Char).toNat = 9 := rfl
        omega
      have k3 : Char.ofNat (c.toNat + 32) ≠ '\x0d' := fun heq => by
        rw [heq] at ht
        have : ('\x0d' : Char).toNat = 13 := rfl
        omega
      have k4 : Char.ofNat (c.toNat + 32) ≠ '\n' := fun heq => by
        rw [heq] at ht
        have : ('\n' : Char).toNat = 10 := rfl
        omega
      simp [k1, k2, k3, k4]
    have h2 : c.isWhitespace = false := by
      unfold Char.isWhitespace
      have k1 : c ≠ ' ' := fun heq => absurd h.1 (by subst heq; decide)
      have k2 : c ≠ '\t' := fun heq => absurd h.1 (by subst heq; decide)
      have k3 : c ≠ '\x0d' := fun heq => absurd h.1 (by subst heq; decide)
      have k4 : c ≠ '\n' := fun heq => absurd h.1 (by subst heq; decide)
      simp [k1, k2, k3, k4]
    rw [h1, h2]
  · rfl

theorem pyStrip_ne_nil_exists (text : List Char) (h : pyStrip text ≠ []) :
    ∃ c ∈ text, c.isWhitespace = false := by
  by_contra hall
  push_neg at hall
  apply h
  unfold pyStrip
  have h1 : text.dropWhile Char.isWhitespace = [] := by
    rw [List.dropWhile_eq_nil_iff]
    intro x hx
    simpa using hall x hx
  rw [h1]
  rfl

theorem wordsAux_ne_nil_acc :
    ∀ (s acc : List Char), acc ≠ [] → wordsAux s acc ≠ [] := by
  intro s
  induction s with
  | nil =>
    intro acc h
    unfold wordsAux
    simp [List.isEmpty_iff, h]
  | cons c cs ih =>
    intro acc h
    unfold wordsAux
    by_cases hw : c.isWhitespace = true
    · simp only [hw, if_true, List.isEmpty_iff, h, if_neg h]
      simp
    · simp only [hw, if_false]
      exact ih (c :: acc) (by simp)

theorem wordsAux_ne_nil :
    ∀ (s : List Char) (acc : List Char),
      (∃ c ∈ s, c.isWhitespace = false) → wordsAux s acc ≠ [] := by
  intro s
  induction s with
  | nil =>
    rintro acc ⟨c, hc, _⟩
    cases hc
  | cons c cs ih =>
    rintro acc ⟨d, hd, hdw⟩
    unfold wordsAux
    rcases List.mem_cons.mp hd with rfl | hmem
    · rw [if_neg (by simp [hdw])]
      exact wordsAux_ne_nil_acc cs (d :: acc) (by simp)
    · by_cases hw : c.isWhitespace = true
      · rw [if_pos hw]
        by_cases hacc : acc.isEmpty = true
        · rw [if_pos hacc]
          exact ih [] ⟨d, hmem, hdw⟩
        · rw [if_neg hacc]
          simp
      · rw [if_neg hw]
        exact wordsAux_ne_nil_acc cs (c :: acc) (by simp)

/-- C10: the heuristic orality computation never divides by zero — for
any text that is nonempty after stripping, the whitespace-split word
count of the lowercased text is strictly positive, so the rational
divisor it supplies is nonzero. -/
theorem heuristic_divisions_guarded :
    ∀ text : List Char, pyStrip text ≠ [] →
      0 < (pyWords (lowerStr text)).length ∧
      ((pyWords (lowerStr text)).length : ℚ) ≠ 0 := by
  intro text h
  obtain ⟨c, hc, hcw⟩ := pyStrip_ne_nil_exists text h
  have hl : ∃ d ∈ lowerStr text, d.isWhitespace = false :=
    ⟨Char.toLower c, List.mem_map_of_mem _ hc, by rw [isWhitespace_toLower]; exact hcw⟩
  have hne : pyWords (lowerStr text) ≠ [] := wordsAux_ne_nil (lowerStr text) [] hl
  have hp : 0 < (pyWords (lowerStr text)).length := List.length_pos.mpr hne
  exact ⟨hp, Nat.cast_ne_zero.mpr (Nat.pos_iff_ne_zero.mp hp)⟩

/-- Witness for C10: the two-character text hi. -/
theorem heuristic_divisions_guarded_witness :
    0 < (pyWords (lowerStr ('h' :: ['i']))).length ∧
      ((pyWords (lowerStr ('h' :: ['i']))).length : ℚ) ≠ 0 :=
  heuristic_divisions_guarded ('h' :: ['i']) (by decide)

end LingSvc
